import Mathlib

/-
Formal model of the offline-first synchronization subsystem of the
VentaFacil inventory / point-of-sale application.

The definitions below are a shallow embedding of:
  - client/src/lib/indexedDB.ts   (local durable store and domain mutators)
  - client/src/lib/syncService.ts (the synchronizer / drain pass)

Conventions of the embedding:
  - An IndexedDB object store keyed by `id` is a `List` of records; `storeAdd`
    models `store.add` (fails on a duplicate key, aborting the transaction),
    `storePut` models `store.put` (insert-or-replace by key), `storeDelete`
    models `store.delete` (idempotent), `storeGet` models `store.get`.
  - A mutator that can abort its transaction returns `Option DB`; `none` means
    the transaction aborted and the store is unchanged (the caller keeps the
    old `DB` value).
  - The impure ingredients of a mutator (the generated local id, `Date.now()`)
    are passed as explicit parameters.
  - JavaScript numbers used by these code paths (price, quantity, totals,
    timestamps) are modelled as `Int`; only comparisons, subtraction and `max`
    occur.  The `synced` field is the literal `0` / `1` the source writes.
  - Category objects are created by the source without a `synced` property
    (`{id, name, color}`), while product and sale objects always carry one;
    the stored category record therefore has `synced : Option Int`, `none`
    meaning the property is absent on the stored object.
-/

namespace VentaFacil

/-- A category record as stored in the `categories` object store.  The source
constructs category objects without a `synced` property, so `synced` is
`Option Int` with `none` meaning the property is absent. -/
structure CategoryR where
  id : String
  name : String
  color : String
  synced : Option Int
deriving Repr, DecidableEq

/-- A product record as stored in the `products` object store
(see `addProduct` in indexedDB.ts). -/
structure ProductR where
  id : String
  name : String
  price : Int
  quantity : Int
  categoryId : Option String
  localId : Option String
  synced : Int
  userId : Option String
deriving Repr, DecidableEq

/-- A sale record as stored in the `sales` object store
(see `addSale` in indexedDB.ts). -/
structure SaleR where
  id : String
  productId : Option String
  productName : String
  quantity : Int
  unitPrice : Int
  total : Int
  date : String
  localId : Option String
  synced : Int
  userId : Option String
deriving Repr, DecidableEq

/-- Input of `addCategory` (`InsertCategory`). -/
structure InsertCategory where
  name : String
  color : Option String
deriving Repr, DecidableEq

/-- Input of `addProduct` (`InsertProduct`). -/
structure InsertProduct where
  name : String
  price : Int
  quantity : Option Int
  categoryId : Option String
  userId : Option String
deriving Repr, DecidableEq

/-- Input of `addSale` (`InsertSale`). -/
structure InsertSale where
  productId : Option String
  productName : String
  quantity : Int
  unitPrice : Int
  total : Int
  date : String
  userId : Option String
deriving Repr, DecidableEq

/-- Entity type of a pending operation (`item.type` in the source). -/
inductive EntityType where
  | product
  | sale
  | category
deriving Repr, DecidableEq

/-- Action of a pending operation (`item.action` in the source). -/
inductive PendAction where
  | add
  | update
  | delete
deriving Repr, DecidableEq

/-- A record of the `pendingSync` object store.  `seq` is the auto-increment
key, `timestamp` the `Date.now()` value recorded at enqueue time, and
`dataId` the `id` field of the operation's `data` payload (always present for
the operations the mutators enqueue). -/
structure Op where
  seq : Nat
  timestamp : Int
  etype : EntityType
  action : PendAction
  dataId : String
deriving Repr, DecidableEq

/-- The local IndexedDB database: the four object stores of `openDB`, plus
the next auto-increment key of `pendingSync`.  `pending` is kept in key
(auto-increment) order, which is the order `getAll` returns. -/
structure DB where
  categories : List CategoryR
  products : List ProductR
  sales : List SaleR
  pending : List Op
  nextSeq : Nat
deriving Repr, DecidableEq

/-
Keyed object-store primitives.
-/

/-- Model of `store.get(id)` on a store keyed by `key`. -/
def storeGet {α : Type} (key : α → String) (l : List α) (id : String) : Option α :=
  l.find? (fun r => key r == id)

/-- Whether a record with key `id` is present. -/
def storeHas {α : Type} (key : α → String) (l : List α) (id : String) : Bool :=
  l.any (fun r => key r == id)

/-- Model of `store.put(r)`: insert-or-replace by key. -/
def storePut {α : Type} (key : α → String) (l : List α) (r : α) : List α :=
  if storeHas key l (key r) then
    l.map (fun x => if key x == key r then r else x)
  else
    l ++ [r]

/-- Model of `store.add(r)`: fails (aborting the transaction) when the key is
already present. -/
def storeAdd {α : Type} (key : α → String) (l : List α) (r : α) : Option (List α) :=
  if storeHas key l (key r) then none else some (l ++ [r])

/-- Model of `store.delete(id)`: idempotent removal by key. -/
def storeDelete {α : Type} (key : α → String) (l : List α) (id : String) : List α :=
  l.filter (fun x => !(key x == id))

/-
JavaScript truthiness helpers: the source uses `x || d` and `if (x)` on
string-valued fields, for which the empty string is falsy.
-/

/-- Model of `s || d` for an optional string `s` and default `d`. -/
def jsOrElse (s : Option String) (d : String) : String :=
  match s with
  | some v => if v == "" then d else v
  | none => d

/-- Model of `s || null` for an optional string `s`. -/
def jsOrNull (s : Option String) : Option String :=
  match s with
  | some v => if v == "" then none else some v
  | none => none

/-- Model of the truthiness test `if (s)` on an optional string. -/
def jsTruthy (s : Option String) : Bool :=
  match s with
  | some v => !(v == "")
  | none => false

/-
Domain mutators (indexedDB.ts).
-/

/-- Embedding of `addCategory`.  The transaction spans only the `categories`
store: the new category row is written and nothing is enqueued in
`pendingSync`. -/
def addCategory (db : DB) (localId : String) (c : InsertCategory) : Option DB :=
  let newCategory : CategoryR :=
    { id := localId, name := c.name, color := jsOrElse c.color "#10B981", synced := none }
  match storeAdd CategoryR.id db.categories newCategory with
  | none => none
  | some cs => some { db with categories := cs }

/-- Embedding of `updateCategory`: `put` on the `categories` store only;
nothing is enqueued in `pendingSync`. -/
def updateCategory (db : DB) (c : CategoryR) : DB :=
  { db with categories := storePut CategoryR.id db.categories c }

/-- Embedding of `deleteCategory`: `delete` on the `categories` store only;
nothing is enqueued in `pendingSync`. -/
def deleteCategory (db : DB) (id : String) : DB :=
  { db with categories := storeDelete CategoryR.id db.categories id }

/-- Embedding of `setCategories`: clear the store, then `put` every snapshot
record verbatim. -/
def setCategories (db : DB) (cs : List CategoryR) : DB :=
  { db with categories := cs.foldl (fun acc c => storePut CategoryR.id acc c) [] }

/-- Embedding of `addProduct`: one transaction over `products` and
`pendingSync` writing the new product row and one pending operation.
The transaction aborts (result `none`) exactly when `store.add` hits a
duplicate key. -/
def addProduct (db : DB) (localId : String) (now : Int) (p : InsertProduct) : Option DB :=
  match storeAdd ProductR.id db.products
      { id := localId, name := p.name, price := p.price,
        quantity := p.quantity.getD 0, categoryId := jsOrNull p.categoryId,
        localId := some localId, synced := 0, userId := jsOrNull p.userId } with
  | none => none
  | some ps =>
      some { db with
        products := ps,
        pending := db.pending ++
          [{ seq := db.nextSeq, timestamp := now, etype := .product,
             action := .add, dataId := localId }],
        nextSeq := db.nextSeq + 1 }

/-- Embedding of `updateProduct`: `put` of the record with `synced := 0`,
plus one pending `update` operation, in one transaction. -/
def updateProduct (db : DB) (now : Int) (p : ProductR) : DB :=
  let updatedProduct : ProductR := { p with synced := 0 }
  { db with
    products := storePut ProductR.id db.products updatedProduct,
    pending := db.pending ++
      [{ seq := db.nextSeq, timestamp := now, etype := .product,
         action := .update, dataId := updatedProduct.id }],
    nextSeq := db.nextSeq + 1 }

/-- Embedding of `deleteProduct`: `delete` of the row plus one pending
`delete` operation whose payload is `{id}`, in one transaction. -/
def deleteProduct (db : DB) (now : Int) (id : String) : DB :=
  { db with
    products := storeDelete ProductR.id db.products id,
    pending := db.pending ++
      [{ seq := db.nextSeq, timestamp := now, etype := .product,
         action := .delete, dataId := id }],
    nextSeq := db.nextSeq + 1 }

/-- Embedding of `setProducts`: clear the store, then `put` every snapshot
record with `synced := 1`. -/
def setProducts (db : DB) (ps : List ProductR) : DB :=
  { db with
    products := ps.foldl (fun acc p => storePut ProductR.id acc { p with synced := 1 }) [] }

/-- The rewritten product record of `addSale`'s quantity side effect:
`quantity := max 0 (quantity - sale.quantity)`, `synced := 0`, all other
fields unchanged. -/
def decrementedProduct (p : ProductR) (s : InsertSale) : ProductR :=
  { p with quantity := max 0 (p.quantity - s.quantity), synced := 0 }

/-- The product-quantity side effect of `addSale`: when `sale.productId` is
truthy and the product exists, the product is rewritten via
`decrementedProduct`; when the product is absent the update is silently
skipped. -/
def saleDecrement (products : List ProductR) (s : InsertSale) : List ProductR :=
  if jsTruthy s.productId then
    match storeGet ProductR.id products (s.productId.getD "") with
    | some p => storePut ProductR.id products (decrementedProduct p s)
    | none => products
  else products

/-- Embedding of `addSale`: one transaction over `sales`, `products` and
`pendingSync`.  Writes the sale row, enqueues exactly one pending operation
of type `sale`, and applies `saleDecrement` to the products store.  The
transaction aborts (result `none`) exactly when the sale row's `store.add`
hits a duplicate key. -/
def addSale (db : DB) (localId : String) (now : Int) (s : InsertSale) : Option DB :=
  match storeAdd SaleR.id db.sales
      { id := localId, productId := jsOrNull s.productId,
        productName := s.productName, quantity := s.quantity,
        unitPrice := s.unitPrice, total := s.total, date := s.date,
        localId := some localId, synced := 0, userId := jsOrNull s.userId } with
  | none => none
  | some ss =>
      some { db with
        sales := ss,
        products := saleDecrement db.products s,
        pending := db.pending ++
          [{ seq := db.nextSeq, timestamp := now, etype := .sale,
             action := .add, dataId := localId }],
        nextSeq := db.nextSeq + 1 }

/-- Embedding of `setSales`: clear the store, then `put` every snapshot
record with `synced := 1`. -/
def setSales (db : DB) (ss : List SaleR) : DB :=
  { db with
    sales := ss.foldl (fun acc s => storePut SaleR.id acc { s with synced := 1 }) [] }

/-- Generic embedding of `markAsSynced`: `get` the record by id and, when
present, `put` it back with its synced flag set (`setS`); absent ids are a
no-op. -/
def markSynced {α : Type} (key : α → String) (setS : α → α)
    (l : List α) (id : String) : List α :=
  match storeGet key l id with
  | some r => storePut key l (setS r)
  | none => l

/-- Embedding of `markAsSynced('products', id)`. -/
def markProductSynced (l : List ProductR) (id : String) : List ProductR :=
  markSynced ProductR.id (fun p => { p with synced := 1 }) l id

/-- Embedding of `markAsSynced('sales', id)`. -/
def markSaleSynced (l : List SaleR) (id : String) : List SaleR :=
  markSynced SaleR.id (fun s => { s with synced := 1 }) l id

/-- Embedding of `clearPendingSync`: `store.clear()` on `pendingSync`, wiping
every record present at the moment it runs. -/
def clearPendingSync (_pending : List Op) : List Op :=
  []

/-
The synchronizer (syncService.ts).
-/

/-- An HTTP request as issued by the drain loop: method and endpoint. -/
structure NetRequest where
  method : String
  endpoint : String
deriving Repr, DecidableEq

/-- Insert into a timestamp-sorted list, placing the new element before the
first element whose timestamp is not smaller.  This is the stable placement,
matching the stability guarantee of `Array.prototype.sort` with the
comparator `(a, b) => a.timestamp - b.timestamp`. -/
def insertByTs (x : Op) : List Op → List Op
  | [] => [x]
  | y :: ys => if x.timestamp ≤ y.timestamp then x :: y :: ys else y :: insertByTs x ys

/-- Stable sort by `timestamp`, modelling
`pendingItems.sort((a, b) => a.timestamp - b.timestamp)`. -/
def sortByTs : List Op → List Op
  | [] => []
  | x :: xs => insertByTs x (sortByTs xs)

/-- The request the drain loop issues for one pending operation: the
action-to-verb switch of `syncToServer` (default `POST` to the collection
root; `update` becomes `PATCH /{resource}/{id}`; `delete` becomes
`DELETE /{resource}/{id}`; sales only ever `POST`). -/
def requestOf (op : Op) : NetRequest :=
  match op.etype with
  | .product =>
      match op.action with
      | .update => { method := "PATCH", endpoint := "/api/products/" ++ op.dataId }
      | .delete => { method := "DELETE", endpoint := "/api/products/" ++ op.dataId }
      | .add => { method := "POST", endpoint := "/api/products" }
  | .sale => { method := "POST", endpoint := "/api/sales" }
  | .category =>
      match op.action with
      | .update => { method := "PATCH", endpoint := "/api/categories/" ++ op.dataId }
      | .delete => { method := "DELETE", endpoint := "/api/categories/" ++ op.dataId }
      | .add => { method := "POST", endpoint := "/api/categories" }

/-- One iteration of the drain loop, given the remote's response (`resp item
= true` means a 2xx response; `false` covers a non-2xx response or a thrown
network error, both caught per item).  On success, when the payload id is
truthy and the entity is not a category, the corresponding local record is
marked `synced = 1`; on failure the local stores are untouched. -/
def syncStep (resp : Op → Bool) (db : DB) (item : Op) : DB :=
  if resp item then
    if item.dataId != "" && !(item.etype == EntityType.category) then
      match item.etype with
      | .sale => { db with sales := markSaleSynced db.sales item.dataId }
      | _ => { db with products := markProductSynced db.products item.dataId }
    else db
  else db

/-- Embedding of the body of `syncToServer` past its guard, together with the
operations enqueued concurrently.  `during` are the pending operations other
producers enqueue between the `getPendingSync()` snapshot read and the
end-of-pass `clearPendingSync()`.  When the snapshot is empty the pass
returns early without clearing, so `during` survives; otherwise the sorted
snapshot is replayed (returning the issued request list) and the final
`clearPendingSync` wipes everything present at that moment — snapshot and
`during` alike. -/
def syncPass (resp : Op → Bool) (during : List Op) (db : DB) : DB × List NetRequest :=
  if db.pending.isEmpty then
    ({ db with pending := db.pending ++ during }, [])
  else
    ({ (sortByTs db.pending).foldl (syncStep resp) db with
        pending := clearPendingSync (db.pending ++ during) },
      (sortByTs db.pending).map requestOf)

/-
Helper lemmas about the store primitives.
-/

theorem beq_comm_str (a b : String) : (a == b) = (b == a) := by
  by_cases h : a = b
  · subst h; rfl
  · have h' : ¬b = a := fun hc => h hc.symm
    simp [beq_iff_eq, h, h']

theorem storeHas_eq_false_iff {α : Type} (key : α → String) (l : List α) (id : String) :
    storeHas key l id = false ↔ ∀ r ∈ l, key r ≠ id := by
  simp [storeHas]

theorem storeGet_eq_none_iff {α : Type} (key : α → String) (l : List α) (id : String) :
    storeGet key l id = none ↔ ∀ r ∈ l, key r ≠ id := by
  simp [storeGet, List.find?_eq_none]

theorem storeHas_of_mem {α : Type} (key : α → String) {l : List α} {r : α}
    (hr : r ∈ l) : storeHas key l (key r) = true := by
  simp [storeHas, List.any_eq_true]
  exact ⟨r, hr, rfl⟩

theorem storePut_append {α : Type} (key : α → String) (l : List α) (r : α)
    (h : storeHas key l (key r) = false) : storePut key l r = l ++ [r] := by
  simp [storePut, h]

theorem storePut_of_has {α : Type} (key : α → String) (l : List α) (r : α)
    (h : storeHas key l (key r) = true) :
    storePut key l r = l.map (fun x => if key x == key r then r else x) := by
  simp [storePut, h]

theorem markSynced_absent {α : Type} (key : α → String) (setS : α → α)
    (l : List α) (id : String) (h : storeGet key l id = none) :
    markSynced key setS l id = l := by
  simp [markSynced, h]

theorem markSynced_eq_map {α : Type} (key : α → String) (setS : α → α)
    (hk : ∀ r, key (setS r) = key r) (l : List α) (id : String)
    (hnd : (l.map key).Nodup) :
    markSynced key setS l id = l.map (fun x => if key x == id then setS x else x) := by
  unfold markSynced
  cases hget : storeGet key l id with
  | none =>
      have hall : ∀ r ∈ l, key r ≠ id := (storeGet_eq_none_iff key l id).mp hget
      have : l.map (fun x => if key x == id then setS x else x) = l.map (fun x => x) := by
        apply List.map_congr_left
        intro a ha
        simp [hall a ha]
      rw [this, List.map_id']
  | some r =>
      have hrmem : r ∈ l := List.mem_of_find?_eq_some hget
      have hrid : key r = id := by
        have := List.find?_some hget
        simpa using this
      have hhas : storeHas key l (key (setS r)) = true := by
        rw [hk]; exact storeHas_of_mem key hrmem
      show storePut key l (setS r) = _
      rw [storePut_of_has key l (setS r) hhas]
      apply List.map_congr_left
      intro x hx
      by_cases hxid : key x = id
      · have hxr : x = r := List.inj_on_of_nodup_map hnd hx hrmem (by rw [hxid, hrid])
        subst hxr
        simp [hk, hxid]
      · have h1 : (key x == key (setS r)) = false := by
          simp [hk, hrid, hxid]
        have h2 : (key x == id) = false := by simp [hxid]
        rw [h1, h2]
        simp

theorem markSynced_map_key {α : Type} (key : α → String) (setS : α → α)
    (hk : ∀ r, key (setS r) = key r) (l : List α) (id : String) :
    (markSynced key setS l id).map key = l.map key := by
  unfold markSynced
  cases hget : storeGet key l id with
  | none => rfl
  | some r =>
      have hrmem : r ∈ l := List.mem_of_find?_eq_some hget
      have hhas : storeHas key l (key (setS r)) = true := by
        rw [hk]; exact storeHas_of_mem key hrmem
      show (storePut key l (setS r)).map key = l.map key
      rw [storePut_of_has key l (setS r) hhas, List.map_map]
      apply List.map_congr_left
      intro x hx
      by_cases hc : (key x == key (setS r)) = true
      · simp only [Function.comp, hc, if_pos]
        have : key x = key (setS r) := by simpa using hc
        simp [this]
      · simp only [Function.comp]
        rw [if_neg (by simpa using hc)]

theorem foldl_storePut_fresh {α : Type} (key : α → String) (f : α → α) :
    ∀ (l acc : List α), ((acc ++ l.map f).map key).Nodup →
      l.foldl (fun a x => storePut key a (f x)) acc = acc ++ l.map f
  | [], acc, _ => by simp
  | x :: xs, acc, h => by
      have hsplit : ((acc ++ (f x :: xs.map f)).map key).Nodup := by
        simpa using h
      have hfresh : storeHas key acc (key (f x)) = false := by
        rw [storeHas_eq_false_iff]
        intro r hr hkey
        rw [List.map_append, List.nodup_append] at hsplit
        exact hsplit.2.2 (List.mem_map_of_mem key hr)
          (by rw [List.map_cons]; exact hkey ▸ List.mem_cons_self _ _)
      rw [List.foldl_cons, storePut_append key acc (f x) hfresh]
      have h' : (((acc ++ [f x]) ++ xs.map f).map key).Nodup := by
        simpa [List.append_assoc] using h
      rw [foldl_storePut_fresh key f xs (acc ++ [f x]) h']
      simp

/-
Helper lemmas about the stable timestamp sort.
-/

theorem insertByTs_perm (x : Op) : ∀ (l : List Op), (insertByTs x l).Perm (x :: l)
  | [] => List.Perm.refl _
  | y :: ys => by
      unfold insertByTs
      by_cases h : x.timestamp ≤ y.timestamp
      · rw [if_pos h]
      · rw [if_neg h]
        exact ((insertByTs_perm x ys).cons y).trans (List.Perm.swap x y ys)

theorem sortByTs_perm : ∀ (l : List Op), (sortByTs l).Perm l
  | [] => List.Perm.refl _
  | x :: xs => (insertByTs_perm x (sortByTs xs)).trans ((sortByTs_perm xs).cons x)

theorem sortByTs_of_sorted :
    ∀ (l : List Op), l.Pairwise (fun a b => a.timestamp ≤ b.timestamp) → sortByTs l = l
  | [], _ => rfl
  | x :: xs, h => by
      rw [List.pairwise_cons] at h
      unfold sortByTs
      rw [sortByTs_of_sorted xs h.2]
      cases xs with
      | nil => rfl
      | cons y ys =>
          unfold insertByTs
          rw [if_pos (h.1 y (List.mem_cons_self y ys))]

theorem any_of_perm {α : Type} {l l' : List α} (h : l.Perm l') (p : α → Bool) :
    l.any p = l'.any p := by
  cases hl : l'.any p with
  | true =>
      rw [List.any_eq_true] at hl ⊢
      obtain ⟨a, ha, hpa⟩ := hl
      exact ⟨a, h.mem_iff.mpr ha, hpa⟩
  | false =>
      rw [List.any_eq_false] at hl ⊢
      intro a ha
      exact hl a (h.mem_iff.mp ha)

/-
Characterization of the drain loop's effect on the local stores.
-/

/-- Whether one pending operation, given the remote's responses, causes
`markAsSynced('products', id)`: a successful response for a non-category
operation with a truthy payload id, of product type, targeting `id`. -/
def productHitBy (resp : Op → Bool) (id : String) (it : Op) : Bool :=
  resp it && it.dataId != "" && (it.etype == EntityType.product) && (it.dataId == id)

/-- Whether one pending operation causes `markAsSynced('sales', id)`. -/
def saleHitBy (resp : Op → Bool) (id : String) (it : Op) : Bool :=
  resp it && it.dataId != "" && (it.etype == EntityType.sale) && (it.dataId == id)

/-- Whether some operation of the list marks product `id` as synced. -/
def productHit (resp : Op → Bool) (items : List Op) (id : String) : Bool :=
  items.any (productHitBy resp id)

/-- Whether some operation of the list marks sale `id` as synced. -/
def saleHit (resp : Op → Bool) (items : List Op) (id : String) : Bool :=
  items.any (saleHitBy resp id)

theorem syncStep_categories (resp : Op → Bool) (db : DB) (item : Op) :
    (syncStep resp db item).categories = db.categories := by
  unfold syncStep
  by_cases hr : resp item
  · rw [if_pos hr]
    by_cases hg : (item.dataId != "" && !(item.etype == EntityType.category)) = true
    · rw [if_pos hg]
      cases item.etype <;> rfl
    · rw [if_neg hg]
  · rw [if_neg hr]

theorem syncStep_pending (resp : Op → Bool) (db : DB) (item : Op) :
    (syncStep resp db item).pending = db.pending := by
  unfold syncStep
  by_cases hr : resp item
  · rw [if_pos hr]
    by_cases hg : (item.dataId != "" && !(item.etype == EntityType.category)) = true
    · rw [if_pos hg]
      cases item.etype <;> rfl
    · rw [if_neg hg]
  · rw [if_neg hr]

theorem map_if_false {α : Type} (l : List α) (f : α → α) (c : α → Bool)
    (h : ∀ x ∈ l, c x = false) :
    l.map (fun x => if c x then f x else x) = l := by
  have h1 : l.map (fun x => if c x then f x else x) = l.map (fun x => x) := by
    apply List.map_congr_left
    intro x hx
    rw [h x hx]
    simp
  rw [h1, List.map_id']

theorem syncStep_products (resp : Op → Bool) (db : DB) (item : Op)
    (hnd : (db.products.map ProductR.id).Nodup) :
    (syncStep resp db item).products =
      db.products.map
        (fun p => if productHitBy resp p.id item then { p with synced := 1 } else p) := by
  unfold syncStep
  by_cases hr : resp item
  · rw [if_pos hr]
    by_cases hg : (item.dataId != "" && !(item.etype == EntityType.category)) = true
    · rw [if_pos hg]
      cases hety : item.etype with
      | category =>
          exfalso
          rw [hety] at hg
          simp at hg
      | sale =>
          show db.products = _
          symm
          apply map_if_false
          intro p _
          unfold productHitBy
          rw [hety]
          simp
      | product =>
          show markProductSynced db.products item.dataId = _
          rw [markProductSynced,
            markSynced_eq_map ProductR.id (fun p => { p with synced := 1 })
              (fun _ => rfl) db.products item.dataId hnd]
          apply List.map_congr_left
          intro p _
          have hnz : (item.dataId != "") = true := by
            have hg2 := hg
            rw [Bool.and_eq_true] at hg2
            exact hg2.1
          have hcond : productHitBy resp p.id item = (p.id == item.dataId) := by
            unfold productHitBy
            rw [hr, hnz, hety, beq_comm_str item.dataId p.id]
            simp
          rw [hcond]
    · rw [if_neg hg]
      have hg' : (item.dataId != "") = false ∨ (item.etype == EntityType.category) = true := by
        rcases Bool.and_eq_false_iff.mp (Bool.eq_false_iff.mpr hg) with h | h
        · exact Or.inl h
        · exact Or.inr (by simpa using h)
      symm
      apply map_if_false
      intro p _
      unfold productHitBy
      rcases hg' with h | h
      · rw [h]; simp
      · have hcat : item.etype = EntityType.category := by simpa using h
        rw [hcat]; simp
  · rw [if_neg hr]
    symm
    apply map_if_false
    intro p _
    unfold productHitBy
    rw [Bool.eq_false_iff.mpr hr]
    simp

theorem syncStep_sales (resp : Op → Bool) (db : DB) (item : Op)
    (hnd : (db.sales.map SaleR.id).Nodup) :
    (syncStep resp db item).sales =
      db.sales.map
        (fun s => if saleHitBy resp s.id item then { s with synced := 1 } else s) := by
  unfold syncStep
  by_cases hr : resp item
  · rw [if_pos hr]
    by_cases hg : (item.dataId != "" && !(item.etype == EntityType.category)) = true
    · rw [if_pos hg]
      cases hety : item.etype with
      | category =>
          exfalso
          rw [hety] at hg
          simp at hg
      | product =>
          show db.sales = _
          symm
          apply map_if_false
          intro s _
          unfold saleHitBy
          rw [hety]
          simp
      | sale =>
          show markSaleSynced db.sales item.dataId = _
          rw [markSaleSynced,
            markSynced_eq_map SaleR.id (fun s => { s with synced := 1 })
              (fun _ => rfl) db.sales item.dataId hnd]
          apply List.map_congr_left
          intro s _
          have hnz : (item.dataId != "") = true := by
            have hg2 := hg
            rw [Bool.and_eq_true] at hg2
            exact hg2.1
          have hcond : saleHitBy resp s.id item = (s.id == item.dataId) := by
            unfold saleHitBy
            rw [hr, hnz, hety, beq_comm_str item.dataId s.id]
            simp
          rw [hcond]
    · rw [if_neg hg]
      have hg' : (item.dataId != "") = false ∨ (item.etype == EntityType.category) = true := by
        rcases Bool.and_eq_false_iff.mp (Bool.eq_false_iff.mpr hg) with h | h
        · exact Or.inl h
        · exact Or.inr (by simpa using h)
      symm
      apply map_if_false
      intro s _
      unfold saleHitBy
      rcases hg' with h | h
      · rw [h]; simp
      · have hcat : item.etype = EntityType.category := by simpa using h
        rw [hcat]; simp
  · rw [if_neg hr]
    symm
    apply map_if_false
    intro s _
    unfold saleHitBy
    rw [Bool.eq_false_iff.mpr hr]
    simp

theorem syncStep_products_map_id (resp : Op → Bool) (db : DB) (item : Op) :
    ((syncStep resp db item).products).map ProductR.id = db.products.map ProductR.id := by
  unfold syncStep
  by_cases hr : resp item
  · rw [if_pos hr]
    by_cases hg : (item.dataId != "" && !(item.etype == EntityType.category)) = true
    · rw [if_pos hg]
      cases hety : item.etype with
      | sale => rfl
      | category =>
          exfalso
          rw [hety] at hg
          simp at hg
      | product =>
          exact markSynced_map_key ProductR.id (fun p => { p with synced := 1 })
            (fun _ => rfl) db.products item.dataId
    · rw [if_neg hg]
  · rw [if_neg hr]

theorem syncStep_sales_map_id (resp : Op → Bool) (db : DB) (item : Op) :
    ((syncStep resp db item).sales).map SaleR.id = db.sales.map SaleR.id := by
  unfold syncStep
  by_cases hr : resp item
  · rw [if_pos hr]
    by_cases hg : (item.dataId != "" && !(item.etype == EntityType.category)) = true
    · rw [if_pos hg]
      cases hety : item.etype with
      | product => rfl
      | category =>
          exfalso
          rw [hety] at hg
          simp at hg
      | sale =>
          exact markSynced_map_key SaleR.id (fun s => { s with synced := 1 })
            (fun _ => rfl) db.sales item.dataId
    · rw [if_neg hg]
  · rw [if_neg hr]

theorem syncFold_categories (resp : Op → Bool) :
    ∀ (items : List Op) (db : DB),
      (items.foldl (syncStep resp) db).categories = db.categories
  | [], _ => rfl
  | it :: its, db => by
      rw [List.foldl_cons, syncFold_categories resp its, syncStep_categories]

theorem syncFold_pending (resp : Op → Bool) :
    ∀ (items : List Op) (db : DB),
      (items.foldl (syncStep resp) db).pending = db.pending
  | [], _ => rfl
  | it :: its, db => by
      rw [List.foldl_cons, syncFold_pending resp its, syncStep_pending]

theorem syncFold_products (resp : Op → Bool) :
    ∀ (items : List Op) (db : DB), (db.products.map ProductR.id).Nodup →
      (items.foldl (syncStep resp) db).products =
        db.products.map
          (fun p => if productHit resp items p.id then { p with synced := 1 } else p)
  | [], db, _ => by
      symm
      apply map_if_false
      intro p _
      simp [productHit]
  | it :: its, db, hnd => by
      rw [List.foldl_cons]
      have hnd' : ((syncStep resp db it).products.map ProductR.id).Nodup := by
        rw [syncStep_products_map_id]; exact hnd
      rw [syncFold_products resp its (syncStep resp db it) hnd']
      rw [syncStep_products resp db it hnd, List.map_map]
      apply List.map_congr_left
      intro p _
      by_cases h1 : productHitBy resp p.id it
      · by_cases h2 : productHit resp its p.id
        · simp [productHit, List.any_cons, h1, h2, Function.comp]
        · simp [productHit, List.any_cons, h1, h2, Function.comp]
      · by_cases h2 : productHit resp its p.id
        · simp [productHit, List.any_cons, h1, h2, Function.comp]
        · simp [productHit, List.any_cons, h1, h2, Function.comp]

theorem syncFold_sales (resp : Op → Bool) :
    ∀ (items : List Op) (db : DB), (db.sales.map SaleR.id).Nodup →
      (items.foldl (syncStep resp) db).sales =
        db.sales.map
          (fun s => if saleHit resp items s.id then { s with synced := 1 } else s)
  | [], db, _ => by
      symm
      apply map_if_false
      intro s _
      simp [saleHit]
  | it :: its, db, hnd => by
      rw [List.foldl_cons]
      have hnd' : ((syncStep resp db it).sales.map SaleR.id).Nodup := by
        rw [syncStep_sales_map_id]; exact hnd
      rw [syncFold_sales resp its (syncStep resp db it) hnd']
      rw [syncStep_sales resp db it hnd, List.map_map]
      apply List.map_congr_left
      intro s _
      by_cases h1 : saleHitBy resp s.id it
      · by_cases h2 : saleHit resp its s.id
        · simp [saleHit, List.any_cons, h1, h2, Function.comp]
        · simp [saleHit, List.any_cons, h1, h2, Function.comp]
      · by_cases h2 : saleHit resp its s.id
        · simp [saleHit, List.any_cons, h1, h2, Function.comp]
        · simp [saleHit, List.any_cons, h1, h2, Function.comp]

/-
Characterization lemmas for the mutators.
-/

theorem storeAdd_of_fresh {α : Type} (key : α → String) (l : List α) (r : α)
    (h : storeHas key l (key r) = false) : storeAdd key l r = some (l ++ [r]) := by
  simp [storeAdd, h]

theorem storeAdd_of_dup {α : Type} (key : α → String) (l : List α) (r : α)
    (h : storeHas key l (key r) = true) : storeAdd key l r = none := by
  simp [storeAdd, h]

theorem storePut_mem {α : Type} (key : α → String) {l : List α} {r x : α}
    (hx : x ∈ storePut key l r) : x ∈ l ∨ x = r := by
  unfold storePut at hx
  by_cases h : storeHas key l (key r) = true
  · rw [if_pos h] at hx
    obtain ⟨y, hy, hyx⟩ := List.mem_map.mp hx
    by_cases hc : (key y == key r) = true
    · rw [if_pos hc] at hyx
      exact Or.inr hyx.symm
    · rw [if_neg hc] at hyx
      exact Or.inl (hyx ▸ hy)
  · rw [if_neg h] at hx
    rcases List.mem_append.mp hx with h1 | h1
    · exact Or.inl h1
    · exact Or.inr (List.mem_singleton.mp h1)

theorem addProduct_eq_of_fresh (db : DB) (localId : String) (now : Int) (p : InsertProduct)
    (h : storeHas ProductR.id db.products localId = false) :
    addProduct db localId now p =
      some { db with
        products := db.products ++
          [{ id := localId, name := p.name, price := p.price,
             quantity := p.quantity.getD 0, categoryId := jsOrNull p.categoryId,
             localId := some localId, synced := 0, userId := jsOrNull p.userId }],
        pending := db.pending ++
          [{ seq := db.nextSeq, timestamp := now, etype := .product,
             action := .add, dataId := localId }],
        nextSeq := db.nextSeq + 1 } := by
  unfold addProduct
  rw [storeAdd_of_fresh ProductR.id db.products _ (by exact h)]

theorem addProduct_eq_of_dup (db : DB) (localId : String) (now : Int) (p : InsertProduct)
    (h : storeHas ProductR.id db.products localId = true) :
    addProduct db localId now p = none := by
  unfold addProduct
  rw [storeAdd_of_dup ProductR.id db.products _ (by exact h)]

theorem addSale_eq_of_fresh (db : DB) (localId : String) (now : Int) (s : InsertSale)
    (h : storeHas SaleR.id db.sales localId = false) :
    addSale db localId now s =
      some { db with
        sales := db.sales ++
          [{ id := localId, productId := jsOrNull s.productId,
             productName := s.productName, quantity := s.quantity,
             unitPrice := s.unitPrice, total := s.total, date := s.date,
             localId := some localId, synced := 0, userId := jsOrNull s.userId }],
        products := saleDecrement db.products s,
        pending := db.pending ++
          [{ seq := db.nextSeq, timestamp := now, etype := .sale,
             action := .add, dataId := localId }],
        nextSeq := db.nextSeq + 1 } := by
  unfold addSale
  rw [storeAdd_of_fresh SaleR.id db.sales _ (by exact h)]

theorem addSale_eq_of_dup (db : DB) (localId : String) (now : Int) (s : InsertSale)
    (h : storeHas SaleR.id db.sales localId = true) :
    addSale db localId now s = none := by
  unfold addSale
  rw [storeAdd_of_dup SaleR.id db.sales _ (by exact h)]

/-
Concrete fixtures used by witnesses and counterexamples.
-/

def emptyDB : DB :=
  { categories := [], products := [], sales := [], pending := [], nextSeq := 0 }

def cokeProduct : ProductR :=
  { id := "p1", name := "Coke", price := 150, quantity := 10,
    categoryId := none, localId := some "p1", synced := 0, userId := none }

def demoInsertProduct : InsertProduct :=
  { name := "Coke", price := 150, quantity := some 10, categoryId := none, userId := none }

def demoInsertSale : InsertSale :=
  { productId := some "p1", productName := "Coke", quantity := 3,
    unitPrice := 150, total := 450, date := "2024-06-01", userId := none }

def demoDB : DB :=
  { categories := [], products := [cokeProduct], sales := [], pending := [], nextSeq := 0 }

/-
Claim theorems.
-/

/-- C5: every successful `addProduct(input)` adds exactly one Product row
with the supplied fresh local id, `quantity = input.quantity ?? 0` and
`synced = 0`, and enqueues exactly one Pending Operation
`{entityType: product, action: add}`, atomically: when the generated id is
fresh the transaction commits with both rows appended, and when `store.add`
fails the whole transaction aborts with `none` — no partially-applied state
is ever returned. -/
theorem addProduct_atomic_spec (db : DB) (localId : String) (now : Int) (p : InsertProduct) :
    (storeHas ProductR.id db.products localId = false →
      addProduct db localId now p =
        some { db with
          products := db.products ++
            [{ id := localId, name := p.name, price := p.price,
               quantity := p.quantity.getD 0, categoryId := jsOrNull p.categoryId,
               localId := some localId, synced := 0, userId := jsOrNull p.userId }],
          pending := db.pending ++
            [{ seq := db.nextSeq, timestamp := now, etype := .product,
               action := .add, dataId := localId }],
          nextSeq := db.nextSeq + 1 }) ∧
    (storeHas ProductR.id db.products localId = true →
      addProduct db localId now p = none) :=
  ⟨addProduct_eq_of_fresh db localId now p, addProduct_eq_of_dup db localId now p⟩

theorem addProduct_atomic_spec_witness :
    storeHas ProductR.id emptyDB.products "local_a" = false ∧
    addProduct emptyDB "local_a" 5 demoInsertProduct =
      some { emptyDB with
        products := emptyDB.products ++
          [{ id := "local_a", name := "Coke", price := 150, quantity := 10,
             categoryId := none, localId := some "local_a", synced := 0, userId := none }],
        pending := emptyDB.pending ++
          [{ seq := 0, timestamp := 5, etype := .product, action := .add,
             dataId := "local_a" }],
        nextSeq := 1 } :=
  ⟨by decide, (addProduct_atomic_spec emptyDB "local_a" 5 demoInsertProduct).1 (by decide)⟩

/-- C6 counterexample: `addProduct` performs no input validation.  For the
concrete input with empty name and negative price the claimed
`ValidationError` does not occur: the call succeeds, the Product row is
written and a Pending Operation is enqueued, contradicting the claim that no
store write happens for such an input. -/
theorem addProduct_validation_counterexample :
    addProduct emptyDB "local_a" 0
        { name := "", price := -1, quantity := some 2, categoryId := none, userId := none } =
      some { categories := [],
             products := [{ id := "local_a", name := "", price := -1, quantity := 2,
                            categoryId := none, localId := some "local_a",
                            synced := 0, userId := none }],
             sales := [],
             pending := [{ seq := 0, timestamp := 0, etype := .product,
                           action := .add, dataId := "local_a" }],
             nextSeq := 1 } := by
  decide

/-- C6 (amended): `addProduct` performs no `name`/`price` validation — an
input with an empty name or a negative price is accepted exactly like any
other input: the Product row is written with the offending values and the
Pending Operation is enqueued.  (Validation of those fields lives only in
the UI form schema and the server route, not in the mutator.) -/
theorem addProduct_accepts_invalid_spec (db : DB) (localId : String) (now : Int)
    (p : InsertProduct) (hbad : p.name = "" ∨ p.price < 0)
    (hfresh : storeHas ProductR.id db.products localId = false) :
    addProduct db localId now p =
      some { db with
        products := db.products ++
          [{ id := localId, name := p.name, price := p.price,
             quantity := p.quantity.getD 0, categoryId := jsOrNull p.categoryId,
             localId := some localId, synced := 0, userId := jsOrNull p.userId }],
        pending := db.pending ++
          [{ seq := db.nextSeq, timestamp := now, etype := .product,
             action := .add, dataId := localId }],
        nextSeq := db.nextSeq + 1 } :=
  addProduct_eq_of_fresh db localId now p hfresh

theorem addProduct_accepts_invalid_spec_witness :
    addProduct emptyDB "local_b" 7
        { name := "", price := -2, quantity := none, categoryId := none, userId := none } =
      some { emptyDB with
        products := emptyDB.products ++
          [{ id := "local_b", name := "", price := -2, quantity := 0,
             categoryId := none, localId := some "local_b", synced := 0, userId := none }],
        pending := emptyDB.pending ++
          [{ seq := 0, timestamp := 7, etype := .product, action := .add,
             dataId := "local_b" }],
        nextSeq := 1 } :=
  addProduct_accepts_invalid_spec emptyDB "local_b" 7
    { name := "", price := -2, quantity := none, categoryId := none, userId := none }
    (Or.inl rfl) (by decide)

/-- C7 (code bug evidence): the category mutators touch only the
`categories` store and never enqueue a Pending Operation — `addCategory` on
an empty database yields a state whose pending queue is still empty, and
`updateCategory` / `deleteCategory` likewise leave the queue untouched, so
an offline category change is never replayed even though `syncToServer`
contains a dedicated (dead) category replay branch. -/
theorem category_mutators_skip_pendingSync :
    addCategory emptyDB "local_c" { name := "Bebidas", color := some "#3B82F6" } =
      some { categories := [{ id := "local_c", name := "Bebidas",
                              color := "#3B82F6", synced := none }],
             products := [], sales := [], pending := [], nextSeq := 0 } ∧
    (updateCategory emptyDB
        { id := "local_c", name := "Jugos", color := "#fff", synced := none }).pending = [] ∧
    (deleteCategory emptyDB "local_c").pending = [] := by
  decide

/-- C10: `markAsSynced(collection, id)` for an id absent from the collection
is a successful no-op on both collections it accepts: the model function
returns (rather than failing) and every record of the collection is left
unchanged. -/
theorem markAsSynced_absent_spec (lp : List ProductR) (ls : List SaleR) (id : String) :
    ((∀ r ∈ lp, r.id ≠ id) → markProductSynced lp id = lp) ∧
    ((∀ r ∈ ls, r.id ≠ id) → markSaleSynced ls id = ls) := by
  constructor
  · intro h
    exact markSynced_absent ProductR.id _ lp id ((storeGet_eq_none_iff ProductR.id lp id).mpr h)
  · intro h
    exact markSynced_absent SaleR.id _ ls id ((storeGet_eq_none_iff SaleR.id ls id).mpr h)

theorem markAsSynced_absent_spec_witness :
    markProductSynced [cokeProduct] "deleted_id" = [cokeProduct] ∧
    markSaleSynced [] "deleted_id" = [] :=
  ⟨(markAsSynced_absent_spec [cokeProduct] [] "deleted_id").1 (by decide),
   (markAsSynced_absent_spec [cokeProduct] [] "deleted_id").2 (by decide)⟩

/-- C8 counterexample: `setCategories` does not rewrite its records with
`synced = true`.  The stored category object is the snapshot record verbatim:
for a snapshot category without a `synced` property the stored record's
`synced` is still absent (`none`), not `true`, refuting the claim for the
`categories` collection. -/
theorem setCategories_synced_counterexample :
    ¬ (∀ c ∈ (setCategories emptyDB
          [{ id := "c1", name := "Bebidas", color := "#fff", synced := none }]).categories,
        c.synced = some 1) := by
  decide

/-- C8 (amended): applying a snapshot clears each collection and rewrites it
to exactly the snapshot's records (for snapshots with distinct ids,
irrespective of the prior contents): products and sales are rewritten with
`synced = 1`, while categories are rewritten verbatim — category records
carry no `synced` flag, so they are not marked. -/
theorem applySnapshot_spec (db : DB) (ps : List ProductR) (ss : List SaleR)
    (cs : List CategoryR) :
    ((ps.map ProductR.id).Nodup →
      (setProducts db ps).products = ps.map (fun p => { p with synced := 1 })) ∧
    ((ss.map SaleR.id).Nodup →
      (setSales db ss).sales = ss.map (fun s => { s with synced := 1 })) ∧
    ((cs.map CategoryR.id).Nodup → (setCategories db cs).categories = cs) := by
  refine ⟨fun hnd => ?_, fun hnd => ?_, fun hnd => ?_⟩
  · show ps.foldl (fun acc p => storePut ProductR.id acc { p with synced := 1 }) [] = _
    have hmaps : ((([] : List ProductR) ++
        ps.map (fun p : ProductR => { p with synced := 1 })).map ProductR.id).Nodup := by
      rw [List.nil_append, List.map_map]
      have : ps.map (ProductR.id ∘ fun p : ProductR => { p with synced := 1 }) = ps.map ProductR.id := by
        apply List.map_congr_left
        intro a _
        rfl
      rw [this]
      exact hnd
    have := foldl_storePut_fresh ProductR.id (fun p => { p with synced := 1 }) ps [] hmaps
    rw [this, List.nil_append]
  · show ss.foldl (fun acc s => storePut SaleR.id acc { s with synced := 1 }) [] = _
    have hmaps : ((([] : List SaleR) ++
        ss.map (fun s : SaleR => { s with synced := 1 })).map SaleR.id).Nodup := by
      rw [List.nil_append, List.map_map]
      have : ss.map (SaleR.id ∘ fun s : SaleR => { s with synced := 1 }) = ss.map SaleR.id := by
        apply List.map_congr_left
        intro a _
        rfl
      rw [this]
      exact hnd
    have := foldl_storePut_fresh SaleR.id (fun s => { s with synced := 1 }) ss [] hmaps
    rw [this, List.nil_append]
  · show cs.foldl (fun acc c => storePut CategoryR.id acc c) [] = _
    have hmaps : ((([] : List CategoryR) ++
        cs.map (fun c => c)).map CategoryR.id).Nodup := by
      rw [List.nil_append, List.map_id']
      exact hnd
    have := foldl_storePut_fresh CategoryR.id (fun c => c) cs [] hmaps
    rw [List.map_id', List.nil_append] at this
    exact this

theorem applySnapshot_spec_witness :
    (setProducts emptyDB [cokeProduct]).products = [{ cokeProduct with synced := 1 }] ∧
    (setSales emptyDB []).sales = ([] : List SaleR) ∧
    (setCategories emptyDB
        [{ id := "c1", name := "Bebidas", color := "#fff", synced := none }]).categories =
      [{ id := "c1", name := "Bebidas", color := "#fff", synced := none }] :=
  ⟨(applySnapshot_spec emptyDB [cokeProduct] []
      [{ id := "c1", name := "Bebidas", color := "#fff", synced := none }]).1 (by decide),
   (applySnapshot_spec emptyDB [cokeProduct] []
      [{ id := "c1", name := "Bebidas", color := "#fff", synced := none }]).2.1 (by decide),
   (applySnapshot_spec emptyDB [cokeProduct] []
      [{ id := "c1", name := "Bebidas", color := "#fff", synced := none }]).2.2 (by decide)⟩

/-- The pending operation sitting in the queue for the C9 scenario. -/
def opA : Op :=
  { seq := 0, timestamp := 0, etype := .product, action := .add, dataId := "p1" }

/-- The pending operation enqueued concurrently, after the drain has read its
snapshot, in the C9 scenario. -/
def opB : Op :=
  { seq := 1, timestamp := 1, etype := .product, action := .update, dataId := "p1" }

/-- A database whose pending queue holds exactly `opA`. -/
def pendDB : DB :=
  { categories := [], products := [], sales := [], pending := [opA], nextSeq := 1 }

/-- C9 counterexample: an operation enqueued after the drain's snapshot read
does NOT survive the pass.  With snapshot `[opA]` and `opB` enqueued during
the pass, the end-of-pass `clearPendingSync` wipes the whole store, so `opB`
is not in the final queue, refuting the claim that it remains for the next
trigger. -/
theorem syncClear_concurrent_counterexample :
    ¬ opB ∈ (syncPass (fun _ => true) [opB] pendDB).1.pending := by
  decide

/-- C9 (amended): whenever the drain's snapshot is non-empty, the end-of-pass
`clearPendingSync` empties the whole pending store — including every
operation enqueued after the snapshot was read, which is therefore lost
rather than left for the next trigger. -/
theorem syncClear_all_spec (resp : Op → Bool) (during : List Op) (db : DB)
    (hne : db.pending ≠ []) : (syncPass resp during db).1.pending = [] := by
  unfold syncPass
  rw [if_neg (fun h => hne (List.isEmpty_iff.mp h))]
  rfl

theorem syncClear_all_spec_witness :
    (syncPass (fun _ => true) [opB] pendDB).1.pending = [] :=
  syncClear_all_spec (fun _ => true) [opB] pendDB (by decide)

/-- C3: every successful `addSale(input)` writes a Sale row with the input's
fields, the supplied fresh local id and `synced = 0`, and enqueues exactly
one Pending Operation `{entityType: sale, action: add}` (the product
decrement is never separately queued).  Within the same transaction, when
`input.productId` is set (truthy) and the referenced Product exists, that
Product is rewritten with `quantity = max 0 (quantity - input.quantity)` and
`synced = 0`; when the Product does not exist the decrement is silently
dropped while the Sale row is still written; when `productId` is unset the
products store is untouched. -/
theorem addSale_spec (db : DB) (localId : String) (now : Int) (s : InsertSale)
    (hfresh : storeHas SaleR.id db.sales localId = false) :
    ∃ db', addSale db localId now s = some db' ∧
      db'.sales = db.sales ++
        [{ id := localId, productId := jsOrNull s.productId, productName := s.productName,
           quantity := s.quantity, unitPrice := s.unitPrice, total := s.total,
           date := s.date, localId := some localId, synced := 0,
           userId := jsOrNull s.userId }] ∧
      db'.pending = db.pending ++
        [{ seq := db.nextSeq, timestamp := now, etype := .sale,
           action := .add, dataId := localId }] ∧
      db'.categories = db.categories ∧
      (∀ pid, s.productId = some pid → pid ≠ "" →
        (∀ pr, storeGet ProductR.id db.products pid = some pr →
          db'.products = db.products.map (fun q =>
            if q.id == pid then decrementedProduct pr s else q)) ∧
        (storeGet ProductR.id db.products pid = none → db'.products = db.products)) ∧
      ((s.productId = none ∨ s.productId = some "") → db'.products = db.products) := by
  refine ⟨_, addSale_eq_of_fresh db localId now s hfresh, rfl, rfl, rfl, ?_, ?_⟩
  · intro pid hpid hpid0
    have ht : jsTruthy s.productId = true := by
      rw [hpid]; simp [jsTruthy, hpid0]
    have hgetd : s.productId.getD "" = pid := by rw [hpid]; rfl
    constructor
    · intro pr hget
      have h0 : db.products.find? (fun r => ProductR.id r == pid) = some pr := hget
      have hmem : pr ∈ db.products := List.mem_of_find?_eq_some h0
      have hkey : ProductR.id pr = pid := by
        have h1 := List.find?_some h0
        simpa using h1
      show saleDecrement db.products s = _
      unfold saleDecrement
      rw [if_pos ht, hgetd, hget]
      show storePut ProductR.id db.products (decrementedProduct pr s) = _
      have hhas : storeHas ProductR.id db.products
          (ProductR.id (decrementedProduct pr s)) = true := by
        show storeHas ProductR.id db.products (ProductR.id pr) = true
        exact storeHas_of_mem ProductR.id hmem
      rw [storePut_of_has ProductR.id db.products _ hhas]
      apply List.map_congr_left
      intro q _
      rw [show ProductR.id (decrementedProduct pr s) = pid from hkey]
    · intro hget
      show saleDecrement db.products s = _
      unfold saleDecrement
      rw [if_pos ht, hgetd, hget]
  · intro h
    show saleDecrement db.products s = _
    unfold saleDecrement
    have hf : jsTruthy s.productId = false := by
      rcases h with h | h <;> rw [h] <;> simp [jsTruthy]
    rw [if_neg (by simp [hf])]

theorem addSale_spec_witness :
    ∃ db', addSale demoDB "s1" 9 demoInsertSale = some db' ∧
      db'.sales = demoDB.sales ++
        [{ id := "s1", productId := jsOrNull demoInsertSale.productId,
           productName := demoInsertSale.productName,
           quantity := demoInsertSale.quantity,
           unitPrice := demoInsertSale.unitPrice, total := demoInsertSale.total,
           date := demoInsertSale.date, localId := some "s1", synced := 0,
           userId := jsOrNull demoInsertSale.userId }] ∧
      db'.pending = demoDB.pending ++
        [{ seq := demoDB.nextSeq, timestamp := 9, etype := .sale,
           action := .add, dataId := "s1" }] ∧
      db'.categories = demoDB.categories ∧
      (∀ pid, demoInsertSale.productId = some pid → pid ≠ "" →
        (∀ pr, storeGet ProductR.id demoDB.products pid = some pr →
          db'.products = demoDB.products.map (fun q =>
            if q.id == pid then decrementedProduct pr demoInsertSale else q)) ∧
        (storeGet ProductR.id demoDB.products pid = none →
          db'.products = demoDB.products)) ∧
      ((demoInsertSale.productId = none ∨ demoInsertSale.productId = some "") →
        db'.products = demoDB.products) :=
  addSale_spec demoDB "s1" 9 demoInsertSale (by decide)

/-- The local-store quantity invariant: every product's quantity is
non-negative. -/
def quantInv (db : DB) : Prop := ∀ p ∈ db.products, 0 ≤ p.quantity

theorem saleDecrement_nonneg (products : List ProductR) (s : InsertSale)
    (hinv : ∀ p ∈ products, 0 ≤ p.quantity) :
    ∀ q ∈ saleDecrement products s, 0 ≤ q.quantity := by
  intro q hq
  unfold saleDecrement at hq
  by_cases ht : jsTruthy s.productId = true
  · rw [if_pos ht] at hq
    cases hget : storeGet ProductR.id products (s.productId.getD "") with
    | some p =>
        rw [hget] at hq
        have hq' : q ∈ storePut ProductR.id products (decrementedProduct p s) := hq
        rcases storePut_mem ProductR.id hq' with h1 | h1
        · exact hinv q h1
        · rw [h1]
          exact le_max_left 0 _
    | none =>
        rw [hget] at hq
        exact hinv q hq
  · rw [if_neg ht] at hq
    exact hinv q hq

/-- C4: `0 ≤ quantity` is an invariant of the products store preserved by
every domain mutator — `addProduct` (for inputs whose quantity, after the
`?? 0` default, is non-negative), `updateProduct` (for an input product
satisfying its own type constraint `quantity ≥ 0`), `deleteProduct`, and
`addSale` (with no hypothesis on the sale at all, thanks to the
`max 0` clamp); moreover for a sale whose quantity exceeds the referenced
product's current quantity the resulting quantity is exactly `0`. -/
theorem quantity_floor_spec :
    (∀ (db : DB) (localId : String) (now : Int) (p : InsertProduct) (db' : DB),
      quantInv db → 0 ≤ p.quantity.getD 0 →
      addProduct db localId now p = some db' → quantInv db') ∧
    (∀ (db : DB) (now : Int) (pr : ProductR),
      quantInv db → 0 ≤ pr.quantity → quantInv (updateProduct db now pr)) ∧
    (∀ (db : DB) (now : Int) (id : String),
      quantInv db → quantInv (deleteProduct db now id)) ∧
    (∀ (db : DB) (localId : String) (now : Int) (s : InsertSale) (db' : DB),
      quantInv db → addSale db localId now s = some db' → quantInv db') ∧
    (∀ (db : DB) (localId : String) (now : Int) (s : InsertSale) (db' : DB)
        (pid : String) (pr : ProductR),
      s.productId = some pid → pid ≠ "" →
      storeGet ProductR.id db.products pid = some pr →
      pr.quantity < s.quantity →
      addSale db localId now s = some db' →
      ∀ q ∈ db'.products, q.id = pid → q.quantity = 0) := by
  refine ⟨?_, ?_, ?_, ?_, ?_⟩
  · intro db localId now p db' hinv hq hadd
    by_cases hh : storeHas ProductR.id db.products localId = true
    · rw [addProduct_eq_of_dup db localId now p hh] at hadd
      cases hadd
    · have hh' : storeHas ProductR.id db.products localId = false := by simpa using hh
      rw [addProduct_eq_of_fresh db localId now p hh'] at hadd
      injection hadd with h
      subst h
      intro q hqmem
      rcases List.mem_append.mp hqmem with h1 | h1
      · exact hinv q h1
      · rw [List.mem_singleton.mp h1]
        exact hq
  · intro db now pr hinv hq q hqmem
    have hq' : q ∈ storePut ProductR.id db.products { pr with synced := 0 } := hqmem
    rcases storePut_mem ProductR.id hq' with h1 | h1
    · exact hinv q h1
    · rw [h1]
      exact hq
  · intro db now id hinv q hqmem
    have hq' : q ∈ db.products.filter (fun x => !(ProductR.id x == id)) := hqmem
    exact hinv q (List.mem_of_mem_filter hq')
  · intro db localId now s db' hinv hadd
    by_cases hh : storeHas SaleR.id db.sales localId = true
    · rw [addSale_eq_of_dup db localId now s hh] at hadd
      cases hadd
    · have hh' : storeHas SaleR.id db.sales localId = false := by simpa using hh
      rw [addSale_eq_of_fresh db localId now s hh'] at hadd
      injection hadd with h
      subst h
      exact saleDecrement_nonneg db.products s hinv
  · intro db localId now s db' pid pr hpid hpid0 hget hlt hadd q hqmem hqid
    by_cases hh : storeHas SaleR.id db.sales localId = true
    · rw [addSale_eq_of_dup db localId now s hh] at hadd
      cases hadd
    · have hh' : storeHas SaleR.id db.sales localId = false := by simpa using hh
      rw [addSale_eq_of_fresh db localId now s hh'] at hadd
      injection hadd with h
      subst h
      have ht : jsTruthy s.productId = true := by
        rw [hpid]; simp [jsTruthy, hpid0]
      have hgetd : s.productId.getD "" = pid := by rw [hpid]; rfl
      have h0 : db.products.find? (fun r => ProductR.id r == pid) = some pr := hget
      have hkey : ProductR.id pr = pid := by
        have h1 := List.find?_some h0
        simpa using h1
      have hmem : pr ∈ db.products := List.mem_of_find?_eq_some h0
      have hq' : q ∈ saleDecrement db.products s := hqmem
      unfold saleDecrement at hq'
      rw [if_pos ht, hgetd, hget] at hq'
      have hzero : max 0 (pr.quantity - s.quantity) = 0 :=
        max_eq_left (sub_nonpos.mpr (le_of_lt hlt))
      have hhas : storeHas ProductR.id db.products
          (ProductR.id (decrementedProduct pr s)) = true := by
        show storeHas ProductR.id db.products (ProductR.id pr) = true
        exact storeHas_of_mem ProductR.id hmem
      have hq'' : q ∈ storePut ProductR.id db.products (decrementedProduct pr s) := hq'
      rw [storePut_of_has ProductR.id db.products _ hhas] at hq''
      obtain ⟨y, hy, hyq⟩ := List.mem_map.mp hq''
      by_cases hc : (ProductR.id y == ProductR.id (decrementedProduct pr s)) = true
      · rw [if_pos hc] at hyq
        rw [← hyq]
        exact hzero
      · rw [if_neg hc] at hyq
        exfalso
        apply hc
        have hyid : ProductR.id y = pid := by rw [hyq]; exact hqid
        show (ProductR.id y == ProductR.id pr) = true
        rw [hyid, hkey]
        simp

theorem quantity_floor_spec_witness :
    quantInv demoDB ∧
    (∀ db', addSale demoDB "s2" 11 { demoInsertSale with quantity := 20 } = some db' →
      ∀ q ∈ db'.products, q.id = "p1" → q.quantity = 0) :=
  ⟨by unfold quantInv; decide,
   fun db' hadd =>
     quantity_floor_spec.2.2.2.2 demoDB "s2" 11 { demoInsertSale with quantity := 20 }
       db' "p1" cokeProduct rfl (by decide) (by decide) (by decide) hadd⟩

/-- C1: for every drain pass that starts with a non-empty pending queue (on
well-keyed product/sale stores), every pending item is attempted exactly
once — the request trace contains one request per queued item, so a
per-item failure does not abort the loop; after the pass the pending queue
is empty even when some items failed; and the product/sale stores are
rewritten so that exactly the records targeted by a successful non-category
operation are marked `synced = 1` while every other record — in particular
one whose only operations failed — is left unchanged, keeping `synced = 0`,
with no retry within the pass. -/
theorem syncToServer_drain_spec (resp : Op → Bool) (db : DB)
    (hndp : (db.products.map ProductR.id).Nodup)
    (hnds : (db.sales.map SaleR.id).Nodup)
    (hne : db.pending ≠ []) :
    (syncPass resp [] db).1.pending = [] ∧
    (syncPass resp [] db).2.length = db.pending.length ∧
    (syncPass resp [] db).1.products =
      db.products.map
        (fun p => if productHit resp db.pending p.id then { p with synced := 1 } else p) ∧
    (syncPass resp [] db).1.sales =
      db.sales.map
        (fun s => if saleHit resp db.pending s.id then { s with synced := 1 } else s) := by
  have hie : ¬ (db.pending.isEmpty = true) := fun h => hne (List.isEmpty_iff.mp h)
  unfold syncPass
  rw [if_neg hie]
  refine ⟨rfl, ?_, ?_, ?_⟩
  · show ((sortByTs db.pending).map requestOf).length = db.pending.length
    rw [List.length_map, (sortByTs_perm db.pending).length_eq]
  · show ((sortByTs db.pending).foldl (syncStep resp) db).products = _
    rw [syncFold_products resp (sortByTs db.pending) db hndp]
    apply List.map_congr_left
    intro q _
    rw [show productHit resp (sortByTs db.pending) q.id = productHit resp db.pending q.id from
      any_of_perm (sortByTs_perm db.pending) (productHitBy resp q.id)]
  · show ((sortByTs db.pending).foldl (syncStep resp) db).sales = _
    rw [syncFold_sales resp (sortByTs db.pending) db hnds]
    apply List.map_congr_left
    intro q _
    rw [show saleHit resp (sortByTs db.pending) q.id = saleHit resp db.pending q.id from
      any_of_perm (sortByTs_perm db.pending) (saleHitBy resp q.id)]

/-- Response stub for the C1 witness: every request succeeds except the one
for the record with id "bad". -/
def drainResp : Op → Bool := fun it => it.dataId != "bad"

def badProduct : ProductR :=
  { id := "bad", name := "Old", price := 1, quantity := 1,
    categoryId := none, localId := some "bad", synced := 0, userId := none }

def drainSale : SaleR :=
  { id := "s0", productId := some "p1", productName := "Coke", quantity := 1,
    unitPrice := 150, total := 150, date := "2024-06-01",
    localId := some "s0", synced := 0, userId := none }

def drainDB : DB :=
  { categories := [],
    products := [cokeProduct, badProduct],
    sales := [drainSale],
    pending :=
      [{ seq := 0, timestamp := 0, etype := .product, action := .add, dataId := "p1" },
       { seq := 1, timestamp := 1, etype := .product, action := .update, dataId := "bad" },
       { seq := 2, timestamp := 2, etype := .sale, action := .add, dataId := "s0" }],
    nextSeq := 3 }

theorem syncToServer_drain_spec_witness :
    (syncPass drainResp [] drainDB).1.pending = [] ∧
    (syncPass drainResp [] drainDB).2.length = drainDB.pending.length ∧
    (syncPass drainResp [] drainDB).1.products =
      drainDB.products.map
        (fun p => if productHit drainResp drainDB.pending p.id then { p with synced := 1 } else p) ∧
    (syncPass drainResp [] drainDB).1.sales =
      drainDB.sales.map
        (fun s => if saleHit drainResp drainDB.pending s.id then { s with synced := 1 } else s) :=
  syncToServer_drain_spec drainResp drainDB (by decide) (by decide) (by decide)

/-- C2: the drain dispatches pending operations in ascending order of their
enqueue timestamp — given a queue whose timestamps are nondecreasing in
sequence (enqueue) order, the stable timestamp sort leaves the queue
unchanged and the request trace is exactly the queue mapped through the
action-to-verb table in enqueue order; in particular a queue holding
add-then-update-then-delete for one product id dispatches exactly
POST /api/products, then PATCH /api/products/id, then DELETE
/api/products/id, never reordered. -/
theorem syncToServer_order_spec (resp : Op → Bool) (db : DB)
    (hts : db.pending.Pairwise (fun a b => a.timestamp ≤ b.timestamp)) :
    (syncPass resp [] db).2 = db.pending.map requestOf ∧
    (∀ (db2 : DB) (pid : String) (s1 s2 s3 : Nat) (t1 t2 t3 : Int),
      t1 ≤ t2 → t2 ≤ t3 →
      db2.pending =
        [{ seq := s1, timestamp := t1, etype := .product, action := .add, dataId := pid },
         { seq := s2, timestamp := t2, etype := .product, action := .update, dataId := pid },
         { seq := s3, timestamp := t3, etype := .product, action := .delete, dataId := pid }] →
      (syncPass resp [] db2).2 =
        [{ method := "POST", endpoint := "/api/products" },
         { method := "PATCH", endpoint := "/api/products/" ++ pid },
         { method := "DELETE", endpoint := "/api/products/" ++ pid }]) := by
  constructor
  · by_cases he : db.pending.isEmpty = true
    · unfold syncPass
      rw [if_pos he, List.isEmpty_iff.mp he]
      rfl
    · unfold syncPass
      rw [if_neg he]
      show (sortByTs db.pending).map requestOf = _
      rw [sortByTs_of_sorted db.pending hts]
  · intro db2 pid s1 s2 s3 t1 t2 t3 h12 h23 hp
    have hne : ¬ (db2.pending.isEmpty = true) := by
      rw [hp]; simp
    unfold syncPass
    rw [if_neg hne]
    show (sortByTs db2.pending).map requestOf = _
    rw [hp, sortByTs_of_sorted _ (by simp [List.pairwise_cons]; omega)]
    rfl

theorem syncToServer_order_spec_witness :
    (syncPass drainResp [] drainDB).2 = drainDB.pending.map requestOf ∧
    (∀ (db2 : DB) (pid : String) (s1 s2 s3 : Nat) (t1 t2 t3 : Int),
      t1 ≤ t2 → t2 ≤ t3 →
      db2.pending =
        [{ seq := s1, timestamp := t1, etype := .product, action := .add, dataId := pid },
         { seq := s2, timestamp := t2, etype := .product, action := .update, dataId := pid },
         { seq := s3, timestamp := t3, etype := .product, action := .delete, dataId := pid }] →
      (syncPass drainResp [] db2).2 =
        [{ method := "POST", endpoint := "/api/products" },
         { method := "PATCH", endpoint := "/api/products/" ++ pid },
         { method := "DELETE", endpoint := "/api/products/" ++ pid }]) :=
  syncToServer_order_spec drainResp drainDB (by decide)

end VentaFacil
